import Mathlib

/-!
Shallow embedding of the payroll rules engine of `src/index.tsx`
(payconfidence-ai): time utilities, the NSW public-holiday table,
band segmentation, break allocation, day-type classification,
15-minute segment rounding, the Sunday / public-holiday minimum-payment
floor and the meal-allowance rules, together with theorems checking the
specification's claims about `applyRules`.

Machine numbers in the source are JavaScript doubles, but every quantity
the engine manipulates is a non-negative integer number of minutes, so
minutes are embedded as `Nat`; the only non-integer values, the hour
fields of the result, are embedded as exact rationals (see `toHours`).
The `explanation` string of the result is derived presentation text and
is not embedded; no claim mentions it.
-/

namespace Payroll

/-- Splitting a character list at every occurrence of `c`: model of
JavaScript `String.prototype.split` with a one-character separator,
written by structural recursion so that proofs and witnesses evaluate. -/
def splitOnChar (c : Char) : List Char → List (List Char)
  | [] => [[]]
  | x :: xs =>
    let rest := splitOnChar c xs
    if x = c then [] :: rest
    else
      match rest with
      | [] => [[x]]
      | r :: rs => (x :: r) :: rs

/-- Numeric value of a decimal digit character. -/
def charToDigit (c : Char) : Nat := c.toNat - 48

/-- Value of a decimal digit string: model of JavaScript `Number(...)` on
the well-formed digit strings produced by the date and time input fields.
(On malformed strings the source produces `NaN`, an "unusable numeric
value" the specification leaves as an open question; no claim covers
them, and this model returns 0 there.) -/
def digitsToNat (l : List Char) : Nat := l.foldl (fun a c => a * 10 + charToDigit c) 0

/-- `parseTimeToMinutes` of src/index.tsx: split `"HH:MM"` on `":"`,
convert the two fields with `Number`, and return `h * 60 + m`. -/
def parseTimeToMinutes (time : String) : Nat :=
  let parts := splitOnChar ':' time.data
  digitsToNat (parts.getD 0 []) * 60 + digitsToNat (parts.getD 1 [])

/-- `overlapMinutes` of src/index.tsx:
`Math.max(0, Math.min(end1, end2) - Math.max(start1, start2))`;
truncated `Nat` subtraction models the clamp at 0. -/
def overlapMinutes (start1 end1 start2 end2 : Nat) : Nat :=
  min end1 end2 - max start1 start2

/-- Hundredths of an hour of a minute count: `Math.round((mins / 60) * 100)`.
For an integer minute count the exact value `5 * mins / 3` has denominator 3,
so it is never half-way between two integers and never within double-precision
error of such a boundary; hence the source's floating-point rounding agrees
with exact rounding, and `round x = floor (x + 1/2) = (10 * mins + 3) / 6`. -/
def toHoursCents (mins : Nat) : Nat := (10 * mins + 3) / 6

/-- `toHours` of src/index.tsx: `Math.round((mins / 60) * 100) / 100`,
as an exact rational. -/
def toHours (mins : Nat) : ℚ := (toHoursCents mins : ℚ) / 100

/-- Days since 0000-03-01 of a proleptic-Gregorian civil date
(the standard `days_from_civil` computation, kept inside `Nat`). -/
def civilDays (y m d : Nat) : Nat :=
  let yAdj := if m ≤ 2 then y - 1 else y
  let era := yAdj / 400
  let yoe := yAdj % 400
  let mp := if 2 < m then m - 3 else m + 9
  let doy := (153 * mp + 2) / 5 + d - 1
  let doe := yoe * 365 + yoe / 4 - yoe / 100 + doy
  era * 146097 + doe

/-- `getDayOfWeek` of src/index.tsx. The source delegates to the JavaScript
runtime: `new Date(dateStr + "T00:00:00").getDay()`, whose implementation is
not part of the repository; for a valid ISO date at local midnight `getDay`
is the proleptic-Gregorian weekday with 0 = Sunday, modelled here through
`civilDays` (1970-01-01 has `civilDays` 719468 ≡ 1 [MOD 7] and was a
Thursday, so the weekday index is `(civilDays + 3) % 7`). -/
def getDayOfWeek (dateStr : String) : String :=
  let parts := (splitOnChar '-' dateStr.data).map digitsToNat
  let dow := (civilDays (parts.getD 0 0) (parts.getD 1 0) (parts.getD 2 0) + 3) % 7
  ["Sunday", "Monday", "Tuesday", "Wednesday", "Thursday", "Friday", "Saturday"].getD dow ""

/-- `roundUpToQuarter` of src/index.tsx: 0 for non-positive input, otherwise
the least multiple of 15 that is ≥ `mins` (`Math.ceil(mins / 15) * 15`). -/
def roundUpToQuarter (mins : Nat) : Nat :=
  if mins ≤ 0 then 0 else ((mins + 14) / 15) * 15

/-- The `NSW_PUBLIC_HOLIDAYS` table of src/index.tsx (2016–2026), verbatim. -/
def NSW_PUBLIC_HOLIDAYS : List String := [
  "2016-01-01", "2016-01-26", "2016-03-25", "2016-03-26", "2016-03-27", "2016-03-28",
  "2016-04-25", "2016-06-13", "2016-10-03", "2016-12-25", "2016-12-26", "2016-12-27",
  "2017-01-01", "2017-01-02", "2017-01-26", "2017-04-14", "2017-04-15", "2017-04-16",
  "2017-04-17", "2017-04-25", "2017-06-12", "2017-10-02", "2017-12-25", "2017-12-26",
  "2018-01-01", "2018-01-26", "2018-03-30", "2018-03-31", "2018-04-01", "2018-04-02",
  "2018-04-25", "2018-06-11", "2018-10-01", "2018-12-25", "2018-12-26",
  "2019-01-01", "2019-01-26", "2019-01-28", "2019-04-19", "2019-04-20", "2019-04-21",
  "2019-04-22", "2019-04-25", "2019-06-10", "2019-10-07", "2019-12-25", "2019-12-26",
  "2020-01-01", "2020-01-26", "2020-01-27", "2020-04-10", "2020-04-11", "2020-04-12",
  "2020-04-13", "2020-04-25", "2020-06-08", "2020-10-05", "2020-12-25", "2020-12-26", "2020-12-28",
  "2021-01-01", "2021-01-26", "2021-04-02", "2021-04-03", "2021-04-04", "2021-04-05",
  "2021-04-25", "2021-06-14", "2021-10-04", "2021-12-25", "2021-12-26", "2021-12-27", "2021-12-28",
  "2022-01-01", "2022-01-03", "2022-01-26", "2022-04-15", "2022-04-16", "2022-04-17",
  "2022-04-18", "2022-04-25", "2022-06-13", "2022-09-22", "2022-10-03", "2022-12-25",
  "2022-12-26", "2022-12-27",
  "2023-01-01", "2023-01-02", "2023-01-26", "2023-04-07", "2023-04-08", "2023-04-09",
  "2023-04-10", "2023-04-25", "2023-06-12", "2023-10-02", "2023-12-25", "2023-12-26",
  "2024-01-01", "2024-01-26", "2024-03-29", "2024-03-30", "2024-03-31", "2024-04-01",
  "2024-04-25", "2024-06-10", "2024-10-07", "2024-12-25", "2024-12-26",
  "2025-01-01", "2025-01-27", "2025-04-18", "2025-04-19", "2025-04-20", "2025-04-21",
  "2025-04-25", "2025-06-09", "2025-10-06", "2025-12-25", "2025-12-26",
  "2026-01-01", "2026-01-26", "2026-04-03", "2026-04-04", "2026-04-05", "2026-04-06",
  "2026-04-25", "2026-06-08", "2026-10-05", "2026-12-25", "2026-12-26", "2026-12-28"]

/-- `isPublicHoliday` of src/index.tsx: exact-match membership in the table. -/
def isPublicHoliday (dateStr : String) : Bool :=
  NSW_PUBLIC_HOLIDAYS.contains dateStr

/-- The `CalculationResult` record of src/index.tsx, without the derived
`explanation` presentation string. -/
structure CalculationResult where
  dayOfWeek : String
  isWeekend : Bool
  isPublicHoliday : Bool
  paidHours : ℚ
  ordinaryHours : ℚ
  overtime15 : ℚ
  overtime20 : ℚ
  publicHoliday15 : ℚ
  publicHoliday25 : ℚ
  minimumRuleApplied : Bool
  mealAllowances : Nat
  mealRules : List String
deriving Repr, DecidableEq

/-- The mutable band variables `pre`, `mid`, `post`, `remainingBreak` of
src/index.tsx as an explicit state. -/
structure BreakState where
  pre : Nat
  mid : Nat
  post : Nat
  remainingBreak : Nat
deriving Repr, DecidableEq

/-- The `"mid" | "pre" | "post"` key union of the `subtractBreak` closure. -/
inductive BandKey
  | mid
  | pre
  | post
deriving Repr, DecidableEq

/-- The `subtractBreak` closure of src/index.tsx: cut
`Math.min(band, remainingBreak)` from the named band and from the
remaining break. -/
def subtractBreak (key : BandKey) (s : BreakState) : BreakState :=
  match key with
  | .mid =>
    let cut := min s.mid s.remainingBreak
    { s with mid := s.mid - cut, remainingBreak := s.remainingBreak - cut }
  | .pre =>
    let cut := min s.pre s.remainingBreak
    { s with pre := s.pre - cut, remainingBreak := s.remainingBreak - cut }
  | .post =>
    let cut := min s.post s.remainingBreak
    { s with post := s.post - cut, remainingBreak := s.remainingBreak - cut }

/-- The three `subtractBreak` calls of src/index.tsx in source order:
in-span first, then pre-span, then post-span. -/
def allocateBreak (preSpan inSpan postSpan breakMinutes : Nat) : BreakState :=
  subtractBreak .post (subtractBreak .pre (subtractBreak .mid
    ⟨preSpan, inSpan, postSpan, breakMinutes⟩))

/-- `spanStart = 8 * 60` of src/index.tsx. -/
def spanStart : Nat := 8 * 60

/-- `spanEnd = 20 * 60` of src/index.tsx. -/
def spanEnd : Nat := 20 * 60

/-- The three raw band overlaps of src/index.tsx followed by break
allocation: the post-break `pre`, `mid`, `post` (and leftover break). -/
def shiftBands (start endMin breakMinutes : Nat) : BreakState :=
  allocateBreak
    (overlapMinutes start endMin 0 spanStart)
    (overlapMinutes start endMin spanStart spanEnd)
    (overlapMinutes start endMin spanEnd (24 * 60))
    breakMinutes

/-- The raw-classification variables of src/index.tsx:
`ordinaryMinutes`, `otSegments`, `sundayOTMinutesRaw`, `ph15Raw`, `ph25Raw`. -/
structure RawBuckets where
  ordinaryMinutes : Nat
  otSegments : List Nat
  sundayOTMinutesRaw : Nat
  ph15Raw : Nat
  ph25Raw : Nat
deriving Repr, DecidableEq

/-- The raw-classification `if` chain of src/index.tsx: public holiday,
else Sunday, else Saturday, else weekday. `Math.max(0, mid - ordinaryMinutes)`
is truncated `Nat` subtraction. -/
def classifyRaw (isPH isSunday isWeekend : Bool) (pre mid post : Nat) : RawBuckets :=
  if isPH then
    ⟨0, [], 0, mid, pre + post⟩
  else if isSunday then
    ⟨0, [], pre + mid + post, 0, 0⟩
  else if isWeekend then
    ⟨0, [pre, mid, post], 0, 0, 0⟩
  else
    let ordinaryMinutes := min mid (7 * 60)
    ⟨ordinaryMinutes, [pre, mid - ordinaryMinutes, post], 0, 0, 0⟩

/-- The rounded-bucket variables of src/index.tsx:
`ot15Minutes`, `ot20Minutes`, `ph15Minutes`, `ph25Minutes`. -/
structure RoundedBuckets where
  ot15Minutes : Nat
  ot20Minutes : Nat
  ph15Minutes : Nat
  ph25Minutes : Nat
deriving Repr, DecidableEq

/-- `otSegments.map(roundUpToQuarter).reduce((a, b) => a + b, 0)` of
src/index.tsx: round each segment up independently, then sum. -/
def sumRoundedSegments (segs : List Nat) : Nat :=
  (segs.map roundUpToQuarter).foldl (· + ·) 0

/-- The rounding-and-tiering `if` chain of src/index.tsx.
`Math.max(0, otTotalRounded - 120)` is truncated `Nat` subtraction. -/
def roundBuckets (isPH isSunday isWeekend : Bool) (raw : RawBuckets) : RoundedBuckets :=
  if isPH then
    ⟨0, 0, roundUpToQuarter raw.ph15Raw, roundUpToQuarter raw.ph25Raw⟩
  else if isSunday then
    ⟨0, roundUpToQuarter raw.sundayOTMinutesRaw, 0, 0⟩
  else if isWeekend then
    let otTotalRounded := sumRoundedSegments raw.otSegments
    ⟨min 120 otTotalRounded, otTotalRounded - 120, 0, 0⟩
  else
    let otTotalRounded := sumRoundedSegments raw.otSegments
    ⟨min 120 otTotalRounded, otTotalRounded - 120, 0, 0⟩

/-- The `paidMinutes` chain of src/index.tsx before the minimum rule. -/
def paidMinutesPreFloor (isPH isSunday isWeekend : Bool)
    (ordinaryMinutes : Nat) (r : RoundedBuckets) : Nat :=
  if isPH then r.ph15Minutes + r.ph25Minutes
  else if isSunday then r.ot20Minutes
  else if isWeekend then r.ot15Minutes + r.ot20Minutes
  else ordinaryMinutes + r.ot15Minutes + r.ot20Minutes

/-- Outcome of the minimum-payment block of src/index.tsx. -/
structure FloorResult where
  minimumRuleApplied : Bool
  paidMinutes : Nat
  buckets : RoundedBuckets
deriving Repr, DecidableEq

/-- The minimum 4-hour payment block of src/index.tsx: on a Sunday or a
public holiday with fewer than 240 paid minutes, add the shortfall to the
highest-penalty bucket (2.5x on a holiday, 2.0x on a Sunday) and set the
paid minutes to exactly 240. -/
def applyMinimumRule (isPH isSunday : Bool) (paid0 : Nat)
    (r : RoundedBuckets) : FloorResult :=
  if (isPH || isSunday) && decide (paid0 < 240) then
    let diff := 240 - paid0
    if isPH then ⟨true, 240, { r with ph25Minutes := r.ph25Minutes + diff }⟩
    else ⟨true, 240, { r with ot20Minutes := r.ot20Minutes + diff }⟩
  else ⟨false, paid0, r⟩

/-- Outcome of the meal-allowance block of src/index.tsx. -/
structure MealResult where
  meals : Nat
  mealRules : List String
deriving Repr, DecidableEq

/-- The meal-allowance block of src/index.tsx, in source order: the two
weekday rules add, the weekend and public-holiday rules overwrite, then
the weekday-only cap at 2. -/
def computeMeals (isPH isWeekend : Bool) (start endMin : Nat)
    (pre mid post ordinaryMinutes : Nat) : MealResult :=
  let workedMinutes := pre + mid + post
  let workedHours := toHours workedMinutes
  let startedBefore6 := !isPH && !isWeekend && decide (start < 360)
  let finishedAfter18 := decide (endMin > 1080)
  let extraInSpanForWeekday := mid - ordinaryMinutes
  let otMinutesTotalForWeekday := pre + post + extraInSpanForWeekday
  let m1 : Nat := if startedBefore6 then 1 else 0
  let r1 : List String :=
    if startedBefore6 then ["Work commenced before 06:00 on a weekday."] else []
  let hit2 := !isPH && !isWeekend && decide (otMinutesTotalForWeekday > 120) && finishedAfter18
  let m2 := if hit2 then m1 + 1 else m1
  let r2 :=
    if hit2 then r1 ++ ["More than 2 hours overtime extending beyond 18:00 on a weekday."]
    else r1
  let hitWeekend := isWeekend && decide (workedHours > 5)
  let m3 := if hitWeekend then 1 else m2
  let r3 := if hitWeekend then r2 ++ ["More than 5 hours worked on a weekend day."] else r2
  let hitPH := isPH && decide (workedHours > 5)
  let m4 := if hitPH then 1 else m3
  let r4 := if hitPH then r3 ++ ["More than 5 hours worked on a public holiday."] else r3
  let meals := if !isPH && !isWeekend && decide (m4 > 2) then 2 else m4
  ⟨meals, r4⟩

/-- The raw classification of a shift, with the day flags computed from the
weekday name exactly as in src/index.tsx. -/
def rawOf (dayOfWeek : String) (isPH : Bool) (start endMin breakMinutes : Nat) : RawBuckets :=
  let bands := shiftBands start endMin breakMinutes
  classifyRaw isPH (dayOfWeek == "Sunday") (dayOfWeek == "Saturday" || dayOfWeek == "Sunday")
    bands.pre bands.mid bands.post

/-- The rounded buckets of a shift before the minimum rule. -/
def roundedOf (dayOfWeek : String) (isPH : Bool) (start endMin breakMinutes : Nat) : RoundedBuckets :=
  roundBuckets isPH (dayOfWeek == "Sunday") (dayOfWeek == "Saturday" || dayOfWeek == "Sunday")
    (rawOf dayOfWeek isPH start endMin breakMinutes)

/-- The paid minutes of a shift before the minimum rule. -/
def paid0Of (dayOfWeek : String) (isPH : Bool) (start endMin breakMinutes : Nat) : Nat :=
  paidMinutesPreFloor isPH (dayOfWeek == "Sunday") (dayOfWeek == "Saturday" || dayOfWeek == "Sunday")
    (rawOf dayOfWeek isPH start endMin breakMinutes).ordinaryMinutes
    (roundedOf dayOfWeek isPH start endMin breakMinutes)

/-- The minimum-rule outcome of a shift: the paid minutes, the final
buckets and whether the rule fired. -/
def floorOf (dayOfWeek : String) (isPH : Bool) (start endMin breakMinutes : Nat) : FloorResult :=
  applyMinimumRule isPH (dayOfWeek == "Sunday")
    (paid0Of dayOfWeek isPH start endMin breakMinutes)
    (roundedOf dayOfWeek isPH start endMin breakMinutes)

/-- The body of `applyRules` of src/index.tsx after input validation, as a
function of the derived weekday name and holiday flag and the parsed
start, end and break minutes. -/
def applyRulesWith (dayOfWeek : String) (isPH : Bool)
    (start endMin breakMinutes : Nat) : CalculationResult :=
  let isWeekend := dayOfWeek == "Saturday" || dayOfWeek == "Sunday"
  let bands := shiftBands start endMin breakMinutes
  let raw := rawOf dayOfWeek isPH start endMin breakMinutes
  let floorR := floorOf dayOfWeek isPH start endMin breakMinutes
  let mealR := computeMeals isPH isWeekend start endMin bands.pre bands.mid bands.post
    raw.ordinaryMinutes
  { dayOfWeek := dayOfWeek
    isWeekend := isWeekend
    isPublicHoliday := isPH
    paidHours := toHours floorR.paidMinutes
    ordinaryHours := toHours raw.ordinaryMinutes
    overtime15 := toHours floorR.buckets.ot15Minutes
    overtime20 := toHours floorR.buckets.ot20Minutes
    publicHoliday15 := toHours floorR.buckets.ph15Minutes
    publicHoliday25 := toHours floorR.buckets.ph25Minutes
    minimumRuleApplied := floorR.minimumRuleApplied
    mealAllowances := mealR.meals
    mealRules := mealR.mealRules }

/-- `applyRules` of src/index.tsx on a validated shift: the weekday name and
holiday flag are derived from the date string exactly as in the source. -/
def applyRulesCore (dateStr : String) (start endMin breakMinutes : Nat) : CalculationResult :=
  applyRulesWith (getDayOfWeek dateStr) (isPublicHoliday dateStr) start endMin breakMinutes

/-- `applyRules` of src/index.tsx. A missing (empty) date, start or end is
rejected, then the times are parsed and `end <= start` is rejected; `null`
is `none`. The break argument is the number produced by the source's
`Number(breakMinutesInput) || 0` coercion (an integer for every claim in
scope), clamped by `Math.max(0, _)` as in the source. -/
def applyRules (dateStr startStr endStr : String) (breakMinutesInput : Int) :
    Option CalculationResult :=
  if dateStr = "" ∨ startStr = "" ∨ endStr = "" then none
  else
    let start := parseTimeToMinutes startStr
    let endMin := parseTimeToMinutes endStr
    if endMin ≤ start then none
    else
      let breakMinutes := (max 0 breakMinutesInput).toNat
      some (applyRulesCore dateStr start endMin breakMinutes)

/-! ### Helper lemmas -/

theorem toHours_zero : toHours 0 = 0 := by
  norm_num [toHours, toHoursCents]

theorem toHours_mono {m n : Nat} (h : m ≤ n) : toHours m ≤ toHours n := by
  unfold toHours
  have hc : toHoursCents m ≤ toHoursCents n := Nat.div_le_div_right (by omega)
  have hq : (toHoursCents m : ℚ) ≤ (toHoursCents n : ℚ) := Nat.cast_le.mpr hc
  gcongr

theorem four_le_toHours {m : Nat} (h : 240 ≤ m) : (4 : ℚ) ≤ toHours m := by
  have h4 : (4 : ℚ) = toHours 240 := by norm_num [toHours, toHoursCents]
  rw [h4]
  exact toHours_mono h

theorem roundBuckets_ph_eq_zero (isSunday isWeekend : Bool) (raw : RawBuckets) :
    (roundBuckets false isSunday isWeekend raw).ph15Minutes = 0 ∧
    (roundBuckets false isSunday isWeekend raw).ph25Minutes = 0 := by
  cases isSunday <;> cases isWeekend <;> simp [roundBuckets]

theorem roundBuckets_ot_eq_zero (isSunday isWeekend : Bool) (raw : RawBuckets) :
    (roundBuckets true isSunday isWeekend raw).ot15Minutes = 0 ∧
    (roundBuckets true isSunday isWeekend raw).ot20Minutes = 0 := by
  simp [roundBuckets]

theorem applyMinimumRule_preserved (isPH isSunday : Bool) (paid0 : Nat) (r : RoundedBuckets) :
    (applyMinimumRule isPH isSunday paid0 r).buckets.ot15Minutes = r.ot15Minutes ∧
    (applyMinimumRule isPH isSunday paid0 r).buckets.ph15Minutes = r.ph15Minutes ∧
    (isPH = true →
      (applyMinimumRule isPH isSunday paid0 r).buckets.ot20Minutes = r.ot20Minutes) ∧
    (isPH = false →
      (applyMinimumRule isPH isSunday paid0 r).buckets.ph25Minutes = r.ph25Minutes) := by
  cases isPH <;> cases isSunday <;> by_cases h : paid0 < 240 <;>
    simp [applyMinimumRule, h]

theorem applyMinimumRule_fires (isPH isSunday : Bool) (paid0 : Nat) (r : RoundedBuckets)
    (hday : isPH = true ∨ isSunday = true) (hlt : paid0 < 240) :
    (applyMinimumRule isPH isSunday paid0 r).minimumRuleApplied = true ∧
    (applyMinimumRule isPH isSunday paid0 r).paidMinutes = 240 ∧
    (isPH = true → (applyMinimumRule isPH isSunday paid0 r).buckets =
      { r with ph25Minutes := r.ph25Minutes + (240 - paid0) }) ∧
    (isPH = false → (applyMinimumRule isPH isSunday paid0 r).buckets =
      { r with ot20Minutes := r.ot20Minutes + (240 - paid0) }) := by
  cases isPH <;> cases isSunday <;> simp_all [applyMinimumRule]

theorem applyMinimumRule_skips (isPH isSunday : Bool) (paid0 : Nat) (r : RoundedBuckets)
    (h : isPH = false ∧ isSunday = false ∨ 240 ≤ paid0) :
    (applyMinimumRule isPH isSunday paid0 r).minimumRuleApplied = false ∧
    (applyMinimumRule isPH isSunday paid0 r).paidMinutes = paid0 ∧
    (applyMinimumRule isPH isSunday paid0 r).buckets = r := by
  rcases h with ⟨h1, h2⟩ | h
  · subst h1; subst h2; simp [applyMinimumRule]
  · have hn : ¬ (paid0 < 240) := by omega
    simp [applyMinimumRule, hn]

theorem applyMinimumRule_paid_ge (isPH isSunday : Bool) (paid0 : Nat) (r : RoundedBuckets)
    (hday : isPH = true ∨ isSunday = true) :
    240 ≤ (applyMinimumRule isPH isSunday paid0 r).paidMinutes := by
  by_cases hlt : paid0 < 240
  · rw [(applyMinimumRule_fires isPH isSunday paid0 r hday hlt).2.1]
  · have hp := (applyMinimumRule_skips isPH isSunday paid0 r (Or.inr (by omega))).2.1
    omega

theorem floorOf_spec (dow : String) (isPH : Bool) (s e b : Nat)
    (hday : isPH = true ∨ dow = "Sunday") :
    240 ≤ (floorOf dow isPH s e b).paidMinutes ∧
    (paid0Of dow isPH s e b < 240 →
      (floorOf dow isPH s e b).minimumRuleApplied = true ∧
      (floorOf dow isPH s e b).paidMinutes = 240 ∧
      (isPH = true →
        (floorOf dow isPH s e b).buckets.ph25Minutes =
          (roundedOf dow isPH s e b).ph25Minutes + (240 - paid0Of dow isPH s e b) ∧
        (floorOf dow isPH s e b).buckets.ph15Minutes +
          (floorOf dow isPH s e b).buckets.ph25Minutes = 240) ∧
      (isPH = false →
        (floorOf dow isPH s e b).buckets.ot20Minutes =
          (roundedOf dow isPH s e b).ot20Minutes + (240 - paid0Of dow isPH s e b) ∧
        (floorOf dow isPH s e b).buckets.ot20Minutes = 240)) := by
  have hday' : isPH = true ∨ (dow == "Sunday") = true := by
    rcases hday with h | h
    · exact Or.inl h
    · exact Or.inr (by simp [h])
  constructor
  · exact applyMinimumRule_paid_ge _ _ _ _ hday'
  · intro hlt
    have hf := applyMinimumRule_fires isPH (dow == "Sunday") (paid0Of dow isPH s e b)
      (roundedOf dow isPH s e b) hday' hlt
    refine ⟨hf.1, hf.2.1, fun hPH => ?_, fun hPH => ?_⟩
    · have hb := hf.2.2.1 hPH
      have hpaid : paid0Of dow isPH s e b =
          (roundedOf dow isPH s e b).ph15Minutes + (roundedOf dow isPH s e b).ph25Minutes := by
        simp [paid0Of, paidMinutesPreFloor, hPH]
      simp only [floorOf]
      rw [hb]
      refine ⟨rfl, ?_⟩
      simp only []
      omega
    · have hb := hf.2.2.2 hPH
      have hSun : (dow == "Sunday") = true := by
        rcases hday with h | h
        · rw [hPH] at h; exact absurd h (by simp)
        · simp [h]
      have hpaid : paid0Of dow isPH s e b = (roundedOf dow isPH s e b).ot20Minutes := by
        simp [paid0Of, paidMinutesPreFloor, hPH, hSun]
      simp only [floorOf]
      rw [hb]
      refine ⟨rfl, ?_⟩
      simp only []
      omega

/-! ### Claim theorems -/

/-- C2: for every shift, the unpaid break is consumed from the in-span band
first, then the pre-span band, then the post-span band, each subtraction
capped at that band's remaining minutes; the total consumed equals the
minimum of the requested break and the gross duration; and the 07:00–21:00
shift with a 90-minute break keeps pre = post = 60 and reduces in-span to 630. -/
theorem break_allocation_priority (pre mid post b : Nat) :
    (allocateBreak pre mid post b).mid = mid - min mid b ∧
    (allocateBreak pre mid post b).pre = pre - min pre (b - min mid b) ∧
    (allocateBreak pre mid post b).post =
      post - min post (b - min mid b - min pre (b - min mid b)) ∧
    min mid b + min pre (b - min mid b) +
        min post (b - min mid b - min pre (b - min mid b)) =
      min b (pre + mid + post) ∧
    (allocateBreak pre mid post b).pre + (allocateBreak pre mid post b).mid +
        (allocateBreak pre mid post b).post + min b (pre + mid + post) =
      pre + mid + post ∧
    (allocateBreak pre mid post b).remainingBreak = b - min b (pre + mid + post) ∧
    shiftBands 420 1260 90 = ⟨60, 630, 60, 0⟩ := by
  refine ⟨?_, ?_, ?_, by omega, ?_, ?_, by decide⟩ <;>
    (simp only [allocateBreak, subtractBreak]; try omega)

/-- C7: a call with an empty date, start or end argument, or whose parsed end
time is not strictly after its parsed start time, returns `none` — no
`CalculationResult` is produced. -/
theorem invalid_input_returns_none (dateStr startStr endStr : String) (b : Int)
    (h : dateStr = "" ∨ startStr = "" ∨ endStr = "" ∨
      parseTimeToMinutes endStr ≤ parseTimeToMinutes startStr) :
    applyRules dateStr startStr endStr b = none := by
  unfold applyRules
  by_cases hempty : dateStr = "" ∨ startStr = "" ∨ endStr = ""
  · simp [hempty]
  · have hle : parseTimeToMinutes endStr ≤ parseTimeToMinutes startStr := by tauto
    simp [hempty, hle]

theorem invalid_input_returns_none_witness :
    applyRules "2024-01-03" "17:00" "09:00" 0 = none :=
  invalid_input_returns_none "2024-01-03" "17:00" "09:00" 0 (by decide)

/-- C1: on a Sunday or public holiday, if the rounded paid minutes are below
240 the shortfall is added to the highest-penalty bucket (ph25 on a holiday,
ot20 on a Sunday) so that paid minutes equal exactly 240 and the minimum rule
is recorded; paid hours are ≥ 4.0 for every such shift; the floor never fires
off Sunday/holiday; and the Sunday 09:00–12:00 zero-break shift is raised
from 3.0 to 4.0 paid hours. -/
theorem minimum_floor_sunday_holiday (dateStr : String) (start endMin b : Nat) :
    ((isPublicHoliday dateStr = true ∨ getDayOfWeek dateStr = "Sunday") →
      (4 : ℚ) ≤ (applyRulesCore dateStr start endMin b).paidHours ∧
      (paid0Of (getDayOfWeek dateStr) (isPublicHoliday dateStr) start endMin b < 240 →
        (applyRulesCore dateStr start endMin b).minimumRuleApplied = true ∧
        (floorOf (getDayOfWeek dateStr) (isPublicHoliday dateStr) start endMin b).paidMinutes
          = 240 ∧
        (isPublicHoliday dateStr = true →
          (floorOf (getDayOfWeek dateStr) (isPublicHoliday dateStr) start endMin
              b).buckets.ph25Minutes =
            (roundedOf (getDayOfWeek dateStr) (isPublicHoliday dateStr) start endMin
              b).ph25Minutes +
              (240 - paid0Of (getDayOfWeek dateStr) (isPublicHoliday dateStr) start endMin b) ∧
          (floorOf (getDayOfWeek dateStr) (isPublicHoliday dateStr) start endMin
              b).buckets.ph15Minutes +
            (floorOf (getDayOfWeek dateStr) (isPublicHoliday dateStr) start endMin
              b).buckets.ph25Minutes = 240) ∧
        (isPublicHoliday dateStr = false →
          (floorOf (getDayOfWeek dateStr) (isPublicHoliday dateStr) start endMin
              b).buckets.ot20Minutes =
            (roundedOf (getDayOfWeek dateStr) (isPublicHoliday dateStr) start endMin
              b).ot20Minutes +
              (240 - paid0Of (getDayOfWeek dateStr) (isPublicHoliday dateStr) start endMin b) ∧
          (floorOf (getDayOfWeek dateStr) (isPublicHoliday dateStr) start endMin
              b).buckets.ot20Minutes = 240))) ∧
    ((isPublicHoliday dateStr = false ∧ getDayOfWeek dateStr ≠ "Sunday") →
      (applyRulesCore dateStr start endMin b).minimumRuleApplied = false) ∧
    (applyRulesCore "2024-01-07" 540 720 0).minimumRuleApplied = true ∧
    paid0Of (getDayOfWeek "2024-01-07") (isPublicHoliday "2024-01-07") 540 720 0 = 180 ∧
    toHours 180 = 3 ∧
    (applyRulesCore "2024-01-07" 540 720 0).paidHours = 4 := by
  refine ⟨fun hday => ?_, fun hnot => ?_, by decide, by decide,
    by norm_num [toHours, toHoursCents], ?_⟩
  · have hs := floorOf_spec (getDayOfWeek dateStr) (isPublicHoliday dateStr) start endMin b hday
    refine ⟨?_, hs.2⟩
    have h4 := four_le_toHours hs.1
    simpa only [applyRulesCore, applyRulesWith] using h4
  · obtain ⟨hPH, hSun⟩ := hnot
    have hSunB : (getDayOfWeek dateStr == "Sunday") = false := by
      simpa using hSun
    have hskip := applyMinimumRule_skips (isPublicHoliday dateStr)
      (getDayOfWeek dateStr == "Sunday")
      (paid0Of (getDayOfWeek dateStr) (isPublicHoliday dateStr) start endMin b)
      (roundedOf (getDayOfWeek dateStr) (isPublicHoliday dateStr) start endMin b)
      (Or.inl ⟨hPH, hSunB⟩)
    simpa only [applyRulesCore, applyRulesWith, floorOf] using hskip.1
  · have h240 : (floorOf (getDayOfWeek "2024-01-07") (isPublicHoliday "2024-01-07")
        540 720 0).paidMinutes = 240 := by decide
    simp only [applyRulesCore, applyRulesWith]
    rw [h240]
    norm_num [toHours, toHoursCents]

theorem minimum_floor_sunday_holiday_witness :
    (4 : ℚ) ≤ (applyRulesCore "2024-01-07" 540 720 0).paidHours ∧
    (applyRulesCore "2024-01-03" 480 1020 30).minimumRuleApplied = false :=
  ⟨((minimum_floor_sunday_holiday "2024-01-07" 540 720 0).1 (Or.inr (by decide))).1,
   (minimum_floor_sunday_holiday "2024-01-03" 480 1020 30).2.1 ⟨by decide, by decide⟩⟩

/-- Mutual exclusivity of the bucket fields of `applyRulesWith`: the
public-holiday buckets vanish off holidays, the ordinary/overtime buckets
vanish on holidays, and ordinary hours vanish on weekend day names. -/
theorem applyRulesWith_exclusive (dow : String) (isPH : Bool) (s e b : Nat) :
    (isPH = false → (applyRulesWith dow isPH s e b).publicHoliday15 = 0 ∧
      (applyRulesWith dow isPH s e b).publicHoliday25 = 0) ∧
    (isPH = true → (applyRulesWith dow isPH s e b).ordinaryHours = 0 ∧
      (applyRulesWith dow isPH s e b).overtime15 = 0 ∧
      (applyRulesWith dow isPH s e b).overtime20 = 0) ∧
    ((dow == "Saturday" || dow == "Sunday") = true →
      (applyRulesWith dow isPH s e b).ordinaryHours = 0) := by
  refine ⟨fun hPH => ?_, fun hPH => ?_, fun hWknd => ?_⟩
  · subst hPH
    have hp := applyMinimumRule_preserved false (dow == "Sunday")
      (paid0Of dow false s e b) (roundedOf dow false s e b)
    have h15 : (roundedOf dow false s e b).ph15Minutes = 0 :=
      (roundBuckets_ph_eq_zero _ _ _).1
    have h25 : (roundedOf dow false s e b).ph25Minutes = 0 :=
      (roundBuckets_ph_eq_zero _ _ _).2
    simp only [applyRulesWith, floorOf]
    rw [hp.2.1, hp.2.2.2 rfl, h15, h25, toHours_zero]
    exact ⟨rfl, rfl⟩
  · subst hPH
    have hp := applyMinimumRule_preserved true (dow == "Sunday")
      (paid0Of dow true s e b) (roundedOf dow true s e b)
    have h15 : (roundedOf dow true s e b).ot15Minutes = 0 :=
      (roundBuckets_ot_eq_zero _ _ _).1
    have h20 : (roundedOf dow true s e b).ot20Minutes = 0 :=
      (roundBuckets_ot_eq_zero _ _ _).2
    have hord : (rawOf dow true s e b).ordinaryMinutes = 0 := by
      simp [rawOf, classifyRaw]
    simp only [applyRulesWith, floorOf]
    rw [hp.1, hp.2.2.1 rfl, h15, h20, hord, toHours_zero]
    exact ⟨rfl, rfl, rfl⟩
  · have hord : (rawOf dow isPH s e b).ordinaryMinutes = 0 := by
      cases hPHb : isPH <;> cases hS : (dow == "Sunday") <;>
        simp_all [rawOf, classifyRaw]
    simp only [applyRulesWith]
    rw [hord, toHours_zero]

/-- C10: every non-null `CalculationResult` has mutually exclusive pay
buckets: `publicHoliday15`/`publicHoliday25` are 0 whenever the date is not
a public holiday; `ordinaryHours`, `overtime15` and `overtime20` are 0
whenever it is; and `ordinaryHours` is 0 on every Saturday or Sunday. -/
theorem bucket_exclusivity (dateStr startStr endStr : String) (b : Int)
    (r : CalculationResult) (h : applyRules dateStr startStr endStr b = some r) :
    (isPublicHoliday dateStr = false →
      r.publicHoliday15 = 0 ∧ r.publicHoliday25 = 0) ∧
    (isPublicHoliday dateStr = true →
      r.ordinaryHours = 0 ∧ r.overtime15 = 0 ∧ r.overtime20 = 0) ∧
    ((getDayOfWeek dateStr = "Saturday" ∨ getDayOfWeek dateStr = "Sunday") →
      r.ordinaryHours = 0) := by
  have hr : r = applyRulesCore dateStr (parseTimeToMinutes startStr)
      (parseTimeToMinutes endStr) (max 0 b).toNat := by
    unfold applyRules at h
    by_cases h1 : dateStr = "" ∨ startStr = "" ∨ endStr = ""
    · simp [h1] at h
    · by_cases h2 : parseTimeToMinutes endStr ≤ parseTimeToMinutes startStr
      · simp [h1, h2] at h
      · simp [h1, h2] at h
        exact h.symm
  subst hr
  have he := applyRulesWith_exclusive (getDayOfWeek dateStr) (isPublicHoliday dateStr)
    (parseTimeToMinutes startStr) (parseTimeToMinutes endStr) (max 0 b).toNat
  refine ⟨he.1, he.2.1, fun hWknd => ?_⟩
  refine he.2.2 ?_
  rcases hWknd with h | h <;> simp [h]

theorem bucket_exclusivity_witness :
    (applyRulesCore "2024-01-03" 480 1020 30).publicHoliday15 = 0 ∧
    (applyRulesCore "2024-01-01" 360 1320 60).ordinaryHours = 0 :=
  ⟨((bucket_exclusivity "2024-01-03" "08:00" "17:00" 30 _ rfl).1 (by decide)).1,
   ((bucket_exclusivity "2024-01-01" "06:00" "22:00" 60 _ rfl).2.1 (by decide)).1⟩

theorem computeMeals_weekday (s e pre mid post ord : Nat) :
    (computeMeals false false s e pre mid post ord).meals =
      min 2 ((if s < 360 then 1 else 0) +
        (if pre + post + (mid - ord) > 120 ∧ e > 1080 then 1 else 0)) ∧
    (computeMeals false false s e pre mid post ord).mealRules =
      (if s < 360 then ["Work commenced before 06:00 on a weekday."] else []) ++
      (if pre + post + (mid - ord) > 120 ∧ e > 1080 then
        ["More than 2 hours overtime extending beyond 18:00 on a weekday."] else []) := by
  by_cases h1 : s < 360 <;> by_cases h2 : pre + post + (mid - ord) > 120 <;>
    by_cases h3 : e > 1080 <;> simp [computeMeals, h1, h2, h3]

theorem computeMeals_weekend_or_holiday (isPH isWeekend : Bool) (s e pre mid post ord : Nat)
    (h : isPH = true ∨ isWeekend = true) :
    (computeMeals isPH isWeekend s e pre mid post ord).meals =
      (if toHours (pre + mid + post) > 5 then 1 else 0) ∧
    (computeMeals isPH isWeekend s e pre mid post ord).mealRules =
      (if isWeekend = true ∧ toHours (pre + mid + post) > 5 then
        ["More than 5 hours worked on a weekend day."] else []) ++
      (if isPH = true ∧ toHours (pre + mid + post) > 5 then
        ["More than 5 hours worked on a public holiday."] else []) := by
  cases isPH <;> cases isWeekend
  · rcases h with h | h <;> simp at h
  all_goals by_cases hw : toHours (pre + mid + post) > 5 <;> simp [computeMeals, hw]

/-- C8: meal allowances come from post-break worked time: on a non-holiday
weekday, +1 for a start before 06:00 and +1 for unrounded overtime
(pre + post + in-span excess over 420) above 120 minutes with an end after
18:00, capped at 2; on a Saturday, Sunday or public holiday the count is set
to 1 exactly when worked hours exceed 5; each triggered rule appends its
description to `mealRules`. -/
theorem meal_allowance_rules (dateStr : String) (start endMin b : Nat) :
    ((isPublicHoliday dateStr = false ∧ getDayOfWeek dateStr ≠ "Saturday" ∧
        getDayOfWeek dateStr ≠ "Sunday") →
      (applyRulesCore dateStr start endMin b).mealAllowances =
        min 2 ((if start < 360 then 1 else 0) +
          (if (shiftBands start endMin b).pre + (shiftBands start endMin b).post +
              ((shiftBands start endMin b).mid - 420) > 120 ∧ endMin > 1080
            then 1 else 0)) ∧
      (applyRulesCore dateStr start endMin b).mealRules =
        (if start < 360 then ["Work commenced before 06:00 on a weekday."] else []) ++
        (if (shiftBands start endMin b).pre + (shiftBands start endMin b).post +
            ((shiftBands start endMin b).mid - 420) > 120 ∧ endMin > 1080
          then ["More than 2 hours overtime extending beyond 18:00 on a weekday."]
          else [])) ∧
    ((isPublicHoliday dateStr = true ∨ getDayOfWeek dateStr = "Saturday" ∨
        getDayOfWeek dateStr = "Sunday") →
      (applyRulesCore dateStr start endMin b).mealAllowances =
        (if toHours ((shiftBands start endMin b).pre + (shiftBands start endMin b).mid +
            (shiftBands start endMin b).post) > 5 then 1 else 0) ∧
      (applyRulesCore dateStr start endMin b).mealRules =
        (if (getDayOfWeek dateStr = "Saturday" ∨ getDayOfWeek dateStr = "Sunday") ∧
            toHours ((shiftBands start endMin b).pre + (shiftBands start endMin b).mid +
              (shiftBands start endMin b).post) > 5
          then ["More than 5 hours worked on a weekend day."] else []) ++
        (if isPublicHoliday dateStr = true ∧
            toHours ((shiftBands start endMin b).pre + (shiftBands start endMin b).mid +
              (shiftBands start endMin b).post) > 5
          then ["More than 5 hours worked on a public holiday."] else [])) := by
  constructor
  · rintro ⟨hPH, hSat, hSun⟩
    have hSatB : (getDayOfWeek dateStr == "Saturday") = false := by simpa using hSat
    have hSunB : (getDayOfWeek dateStr == "Sunday") = false := by simpa using hSun
    have hord : (rawOf (getDayOfWeek dateStr) (isPublicHoliday dateStr) start endMin
        b).ordinaryMinutes = min (shiftBands start endMin b).mid (7 * 60) := by
      simp [rawOf, classifyRaw, hPH, hSatB, hSunB]
    have hm := computeMeals_weekday start endMin (shiftBands start endMin b).pre
      (shiftBands start endMin b).mid (shiftBands start endMin b).post
      (rawOf (getDayOfWeek dateStr) (isPublicHoliday dateStr) start endMin b).ordinaryMinutes
    have hexcess : (shiftBands start endMin b).mid -
        (rawOf (getDayOfWeek dateStr) (isPublicHoliday dateStr) start endMin
          b).ordinaryMinutes = (shiftBands start endMin b).mid - 420 := by
      rw [hord]; omega
    rw [hexcess] at hm
    simp only [applyRulesCore, applyRulesWith]
    rw [hPH] at hm ⊢
    rw [hSatB, hSunB]
    simp only [Bool.or_self]
    exact hm
  · intro hday
    have hdayB : isPublicHoliday dateStr = true ∨
        (getDayOfWeek dateStr == "Saturday" || getDayOfWeek dateStr == "Sunday") = true := by
      rcases hday with h | h | h
      · exact Or.inl h
      · exact Or.inr (by simp [h])
      · exact Or.inr (by simp [h])
    have hm := computeMeals_weekend_or_holiday (isPublicHoliday dateStr)
      (getDayOfWeek dateStr == "Saturday" || getDayOfWeek dateStr == "Sunday")
      start endMin (shiftBands start endMin b).pre (shiftBands start endMin b).mid
      (shiftBands start endMin b).post
      (rawOf (getDayOfWeek dateStr) (isPublicHoliday dateStr) start endMin b).ordinaryMinutes
      hdayB
    have hiff : ((getDayOfWeek dateStr == "Saturday" || getDayOfWeek dateStr == "Sunday")
        = true) ↔ (getDayOfWeek dateStr = "Saturday" ∨ getDayOfWeek dateStr = "Sunday") := by
      simp
    constructor
    · simp only [applyRulesCore, applyRulesWith]
      exact hm.1
    · simp only [applyRulesCore, applyRulesWith]
      rw [hm.2]
      simp only [hiff]

theorem meal_allowance_rules_witness :
    (applyRulesCore "2024-01-03" 300 1140 0).mealAllowances =
      min 2 ((if (300 : Nat) < 360 then 1 else 0) +
        (if (shiftBands 300 1140 0).pre + (shiftBands 300 1140 0).post +
            ((shiftBands 300 1140 0).mid - 420) > 120 ∧ (1140 : Nat) > 1080
          then 1 else 0)) :=
  (((meal_allowance_rules "2024-01-03" 300 1140 0).1 ⟨by decide, by decide, by decide⟩).1)

/-- C9: a public holiday that falls on a Saturday or Sunday with more than
5 post-break worked hours yields `mealAllowances = 1` but both the weekend
and the public-holiday descriptions in `mealRules` — more recorded reasons
than allowances. -/
theorem holiday_weekend_double_meal_rule (dateStr : String) (start endMin b : Nat)
    (hPH : isPublicHoliday dateStr = true)
    (hwknd : getDayOfWeek dateStr = "Saturday" ∨ getDayOfWeek dateStr = "Sunday")
    (hw : toHours ((shiftBands start endMin b).pre + (shiftBands start endMin b).mid +
      (shiftBands start endMin b).post) > 5) :
    (applyRulesCore dateStr start endMin b).mealAllowances = 1 ∧
    (applyRulesCore dateStr start endMin b).mealRules =
      ["More than 5 hours worked on a weekend day.",
       "More than 5 hours worked on a public holiday."] := by
  have hwkndB : (getDayOfWeek dateStr == "Saturday" || getDayOfWeek dateStr == "Sunday")
      = true := by
    rcases hwknd with h | h <;> simp [h]
  have hm := computeMeals_weekend_or_holiday (isPublicHoliday dateStr)
    (getDayOfWeek dateStr == "Saturday" || getDayOfWeek dateStr == "Sunday")
    start endMin (shiftBands start endMin b).pre (shiftBands start endMin b).mid
    (shiftBands start endMin b).post
    (rawOf (getDayOfWeek dateStr) (isPublicHoliday dateStr) start endMin b).ordinaryMinutes
    (Or.inl hPH)
  constructor
  · simp only [applyRulesCore, applyRulesWith]
    rw [hm.1, if_pos hw]
  · simp only [applyRulesCore, applyRulesWith]
    rw [hm.2, hwkndB, hPH]
    simp [hw]

theorem holiday_weekend_double_meal_rule_witness :
    (applyRulesCore "2022-12-25" 480 960 0).mealAllowances = 1 ∧
    (applyRulesCore "2022-12-25" 480 960 0).mealRules =
      ["More than 5 hours worked on a weekend day.",
       "More than 5 hours worked on a public holiday."] :=
  holiday_weekend_double_meal_rule "2022-12-25" 480 960 0 (by decide) (by decide)
    (by
      have h : (shiftBands 480 960 0).pre + (shiftBands 480 960 0).mid +
          (shiftBands 480 960 0).post = 480 := by decide
      rw [h]
      norm_num [toHours, toHoursCents])

/-- C3: on a non-holiday weekday, ordinary minutes are
min(post-break in-span, 420) and the in-span excess plus the pre-span and
post-span minutes form three raw overtime segments, each rounded up to a
15-minute block independently, summed and tiered as
ot15 = min(120, total), ot20 = total − 120; the non-holiday Wednesday
08:00–17:00 shift with a 30-minute break yields 7 ordinary hours,
1.5 hours at 1.5x, none at 2.0x and 8.5 paid hours. -/
theorem weekday_overtime_tiering (dateStr : String) (start endMin b : Nat)
    (hPH : isPublicHoliday dateStr = false)
    (hSat : getDayOfWeek dateStr ≠ "Saturday") (hSun : getDayOfWeek dateStr ≠ "Sunday") :
    rawOf (getDayOfWeek dateStr) (isPublicHoliday dateStr) start endMin b =
      ⟨min (shiftBands start endMin b).mid (7 * 60),
       [(shiftBands start endMin b).pre,
        (shiftBands start endMin b).mid - min (shiftBands start endMin b).mid (7 * 60),
        (shiftBands start endMin b).post], 0, 0, 0⟩ ∧
    roundedOf (getDayOfWeek dateStr) (isPublicHoliday dateStr) start endMin b =
      ⟨min 120 (sumRoundedSegments
          (rawOf (getDayOfWeek dateStr) (isPublicHoliday dateStr) start endMin b).otSegments),
        sumRoundedSegments
          (rawOf (getDayOfWeek dateStr) (isPublicHoliday dateStr) start endMin b).otSegments
          - 120, 0, 0⟩ ∧
    (applyRulesCore "2024-01-03" 480 1020 30).ordinaryHours = 7 ∧
    (applyRulesCore "2024-01-03" 480 1020 30).overtime15 = 1.5 ∧
    (applyRulesCore "2024-01-03" 480 1020 30).overtime20 = 0 ∧
    (applyRulesCore "2024-01-03" 480 1020 30).paidHours = 8.5 := by
  have hSatB : (getDayOfWeek dateStr == "Saturday") = false := by simpa using hSat
  have hSunB : (getDayOfWeek dateStr == "Sunday") = false := by simpa using hSun
  refine ⟨?_, ?_, ?_, ?_, ?_, ?_⟩
  · simp [rawOf, classifyRaw, hPH, hSatB, hSunB]
  · simp [roundedOf, roundBuckets, hPH, hSatB, hSunB]
  · have h : (rawOf (getDayOfWeek "2024-01-03") (isPublicHoliday "2024-01-03")
        480 1020 30).ordinaryMinutes = 420 := by decide
    simp only [applyRulesCore, applyRulesWith]
    rw [h]
    norm_num [toHours, toHoursCents]
  · have h : (floorOf (getDayOfWeek "2024-01-03") (isPublicHoliday "2024-01-03")
        480 1020 30).buckets.ot15Minutes = 90 := by decide
    simp only [applyRulesCore, applyRulesWith]
    rw [h]
    norm_num [toHours, toHoursCents]
  · have h : (floorOf (getDayOfWeek "2024-01-03") (isPublicHoliday "2024-01-03")
        480 1020 30).buckets.ot20Minutes = 0 := by decide
    simp only [applyRulesCore, applyRulesWith]
    rw [h, toHours_zero]
  · have h : (floorOf (getDayOfWeek "2024-01-03") (isPublicHoliday "2024-01-03")
        480 1020 30).paidMinutes = 510 := by decide
    simp only [applyRulesCore, applyRulesWith]
    rw [h]
    norm_num [toHours, toHoursCents]

theorem weekday_overtime_tiering_witness :
    (applyRulesCore "2024-01-03" 480 1020 30).paidHours = 8.5 :=
  (weekday_overtime_tiering "2024-01-03" 480 1020 30 (by decide) (by decide)
    (by decide)).2.2.2.2.2

/-- C4: a date in the public-holiday set is processed as PublicHoliday
regardless of its weekday name: post-break in-span minutes feed the 1.5x
bucket and pre-span plus post-span the 2.5x bucket, each rounded up
independently, with no ordinary or overtime hours; for 2024-01-01,
06:00–22:00 with a 60-minute break, ph15 = 660 and ph25 = 240 minutes,
15.0 paid hours, and the minimum floor does not fire. -/
theorem public_holiday_override (dateStr : String) (start endMin b : Nat)
    (hPH : isPublicHoliday dateStr = true) :
    rawOf (getDayOfWeek dateStr) (isPublicHoliday dateStr) start endMin b =
      ⟨0, [], 0, (shiftBands start endMin b).mid,
        (shiftBands start endMin b).pre + (shiftBands start endMin b).post⟩ ∧
    roundedOf (getDayOfWeek dateStr) (isPublicHoliday dateStr) start endMin b =
      ⟨0, 0, roundUpToQuarter (shiftBands start endMin b).mid,
        roundUpToQuarter
          ((shiftBands start endMin b).pre + (shiftBands start endMin b).post)⟩ ∧
    (applyRulesCore dateStr start endMin b).ordinaryHours = 0 ∧
    (applyRulesCore dateStr start endMin b).overtime15 = 0 ∧
    (applyRulesCore dateStr start endMin b).overtime20 = 0 ∧
    roundedOf (getDayOfWeek "2024-01-01") (isPublicHoliday "2024-01-01") 360 1320 60 =
      ⟨0, 0, 660, 240⟩ ∧
    (applyRulesCore "2024-01-01" 360 1320 60).paidHours = 15 ∧
    (applyRulesCore "2024-01-01" 360 1320 60).minimumRuleApplied = false := by
  have he := applyRulesWith_exclusive (getDayOfWeek dateStr) (isPublicHoliday dateStr)
    start endMin b
  refine ⟨?_, ?_, (he.2.1 hPH).1, (he.2.1 hPH).2.1, (he.2.1 hPH).2.2, by decide, ?_,
    by decide⟩
  · simp [rawOf, classifyRaw, hPH]
  · simp [roundedOf, roundBuckets, hPH, rawOf, classifyRaw]
  · have h : (floorOf (getDayOfWeek "2024-01-01") (isPublicHoliday "2024-01-01")
        360 1320 60).paidMinutes = 900 := by decide
    simp only [applyRulesCore, applyRulesWith]
    rw [h]
    norm_num [toHours, toHoursCents]

theorem public_holiday_override_witness :
    (applyRulesCore "2024-01-01" 360 1320 60).paidHours = 15 :=
  (public_holiday_override "2024-01-01" 360 1320 60 (by decide)).2.2.2.2.2.2.1

/-- C5: on a non-holiday Sunday, all post-break worked minutes go into a
single raw bucket that is rounded up once as a whole and paid entirely at
2.0x; ordinary minutes and the 1.5x overtime bucket are both zero. -/
theorem sunday_single_bucket (dateStr : String) (start endMin b : Nat)
    (hPH : isPublicHoliday dateStr = false) (hSun : getDayOfWeek dateStr = "Sunday") :
    rawOf (getDayOfWeek dateStr) (isPublicHoliday dateStr) start endMin b =
      ⟨0, [], (shiftBands start endMin b).pre + (shiftBands start endMin b).mid +
        (shiftBands start endMin b).post, 0, 0⟩ ∧
    roundedOf (getDayOfWeek dateStr) (isPublicHoliday dateStr) start endMin b =
      ⟨0, roundUpToQuarter ((shiftBands start endMin b).pre +
        (shiftBands start endMin b).mid + (shiftBands start endMin b).post), 0, 0⟩ ∧
    (floorOf (getDayOfWeek dateStr) (isPublicHoliday dateStr) start endMin b).paidMinutes =
      (floorOf (getDayOfWeek dateStr) (isPublicHoliday dateStr) start endMin
        b).buckets.ot20Minutes ∧
    (applyRulesCore dateStr start endMin b).ordinaryHours = 0 ∧
    (applyRulesCore dateStr start endMin b).overtime15 = 0 := by
  have hSunB : (getDayOfWeek dateStr == "Sunday") = true := by simp [hSun]
  have hpaid : paid0Of (getDayOfWeek dateStr) (isPublicHoliday dateStr) start endMin b =
      (roundedOf (getDayOfWeek dateStr) (isPublicHoliday dateStr) start endMin
        b).ot20Minutes := by
    simp [paid0Of, paidMinutesPreFloor, hPH, hSunB]
  refine ⟨?_, ?_, ?_, ?_, ?_⟩
  · simp [rawOf, classifyRaw, hPH, hSunB]
  · simp [roundedOf, roundBuckets, rawOf, classifyRaw, hPH, hSunB]
  · by_cases hlt : paid0Of (getDayOfWeek dateStr) (isPublicHoliday dateStr)
        start endMin b < 240
    · have hf := applyMinimumRule_fires (isPublicHoliday dateStr)
        (getDayOfWeek dateStr == "Sunday")
        (paid0Of (getDayOfWeek dateStr) (isPublicHoliday dateStr) start endMin b)
        (roundedOf (getDayOfWeek dateStr) (isPublicHoliday dateStr) start endMin b)
        (Or.inr hSunB) hlt
      simp only [floorOf]
      rw [hf.2.1, hf.2.2.2 hPH]
      simp only []
      omega
    · have hs := applyMinimumRule_skips (isPublicHoliday dateStr)
        (getDayOfWeek dateStr == "Sunday")
        (paid0Of (getDayOfWeek dateStr) (isPublicHoliday dateStr) start endMin b)
        (roundedOf (getDayOfWeek dateStr) (isPublicHoliday dateStr) start endMin b)
        (Or.inr (by omega))
      simp only [floorOf]
      rw [hs.2.1, hs.2.2]
      exact hpaid
  · refine (applyRulesWith_exclusive (getDayOfWeek dateStr) (isPublicHoliday dateStr)
      start endMin b).2.2 ?_
    simp [hSun]
  · have hp := applyMinimumRule_preserved (isPublicHoliday dateStr)
      (getDayOfWeek dateStr == "Sunday")
      (paid0Of (getDayOfWeek dateStr) (isPublicHoliday dateStr) start endMin b)
      (roundedOf (getDayOfWeek dateStr) (isPublicHoliday dateStr) start endMin b)
    have h15 : (roundedOf (getDayOfWeek dateStr) (isPublicHoliday dateStr) start endMin
        b).ot15Minutes = 0 := by
      simp [roundedOf, roundBuckets, hPH, hSunB]
    simp only [applyRulesCore, applyRulesWith, floorOf]
    rw [hp.1, h15, toHours_zero]

theorem sunday_single_bucket_witness :
    (applyRulesCore "2024-01-07" 540 720 0).ordinaryHours = 0 ∧
    (applyRulesCore "2024-01-07" 540 720 0).overtime15 = 0 :=
  ⟨(sunday_single_bucket "2024-01-07" 540 720 0 (by decide) (by decide)).2.2.2.1,
   (sunday_single_bucket "2024-01-07" 540 720 0 (by decide) (by decide)).2.2.2.2⟩

/-- C6: for Saturday and weekday shifts each raw overtime segment is rounded
up to a 15-minute block independently before summation, so the rounded total
can strictly exceed the rounding of the summed raw minutes: three 5-minute
segments yield 45 rounded minutes against 15 for one contiguous 15-minute
segment of equal raw total, visible as 0.75 vs 0.25 overtime hours in the
full pipeline. -/
theorem independent_segment_rounding :
    (∀ raw : RawBuckets,
      (roundBuckets false false true raw).ot15Minutes =
        min 120 (sumRoundedSegments raw.otSegments) ∧
      (roundBuckets false false true raw).ot20Minutes =
        sumRoundedSegments raw.otSegments - 120 ∧
      (roundBuckets false false false raw).ot15Minutes =
        min 120 (sumRoundedSegments raw.otSegments) ∧
      (roundBuckets false false false raw).ot20Minutes =
        sumRoundedSegments raw.otSegments - 120) ∧
    sumRoundedSegments [5, 5, 5] = 45 ∧
    roundUpToQuarter (5 + 5 + 5) = 15 ∧
    sumRoundedSegments [15] = 15 ∧
    15 < 45 ∧
    rawOf (getDayOfWeek "2024-01-03") (isPublicHoliday "2024-01-03") 475 1205 295 =
      ⟨420, [5, 5, 5], 0, 0, 0⟩ ∧
    rawOf (getDayOfWeek "2024-01-03") (isPublicHoliday "2024-01-03") 480 915 0 =
      ⟨420, [0, 15, 0], 0, 0, 0⟩ ∧
    5 + 5 + 5 = 0 + 15 + 0 ∧
    (applyRulesCore "2024-01-03" 475 1205 295).overtime15 = 0.75 ∧
    (applyRulesCore "2024-01-03" 480 915 0).overtime15 = 0.25 ∧
    (0.25 : ℚ) < 0.75 := by
  refine ⟨fun raw => by simp [roundBuckets], by decide, by decide, by decide, by decide,
    by decide, by decide, by decide, ?_, ?_, by norm_num⟩
  · have h : (floorOf (getDayOfWeek "2024-01-03") (isPublicHoliday "2024-01-03")
        475 1205 295).buckets.ot15Minutes = 45 := by decide
    simp only [applyRulesCore, applyRulesWith]
    rw [h]
    norm_num [toHours, toHoursCents]
  · have h : (floorOf (getDayOfWeek "2024-01-03") (isPublicHoliday "2024-01-03")
        480 915 0).buckets.ot15Minutes = 15 := by decide
    simp only [applyRulesCore, applyRulesWith]
    rw [h]
    norm_num [toHours, toHoursCents]

end Payroll
